import Mathlib

/-!
Verification of the streaming-completion client library (jclem/openai-go).

The repository contains two near-duplicate client generations:

* package `openai` (the older generation): `HTTPClient`, `ChatCompletionResponse`,
  `StreamingChatCompletionObject`, `StreamingChatCompletionResponse`;
* package `pkg/chat` (the newer generation, built on `internal/service`):
  `Service`, `CompletionResponse`, `StreamingCompletionObject`,
  `StreamingCompletionResponse`.

Go strings are modelled as `String` (or `List Char` for byte buffers), Go
`int`/`int64` as `Int`, Go pointers used for optional JSON fields as `Option`,
`json.RawMessage` as the JSON document it holds, and fallible Go functions as
`Except`-returning functions.  Where the streaming core depends on the external
SSE scanner package (`github.com/jclem/sseparser`, declared in go.mod but whose
source is not part of this repository), the scanner is modelled from the spec;
those definitions carry a doc comment starting `Modelled from the spec:`.
-/

namespace OpenAIGo

/-- JSON document values.  Numbers are restricted to integers because every
numeric field of the wire shapes in this repository (`created`, `index`,
token counts) is a Go `int`/`int64`. -/
inductive Json where
  | null
  | bool (b : Bool)
  | num (n : Int)
  | str (s : String)
  | arr (xs : List Json)
  | obj (fields : List (String × Json))


/-- Shallow embedding of the Go struct `FunctionCall` (identical in both
generations): `Name string`, `Arguments json.RawMessage`.  The raw message is
modelled as the JSON document it denotes (a nil raw message denotes the
document `null`). -/
structure FunctionCall where
  name : String
  arguments : Json


/-- Zero value of the Go `FunctionCall` struct. -/
def FunctionCall.zero : FunctionCall := ⟨"", Json.null⟩

namespace Openai

/-- Shallow embedding of `openai.StreamingChatCompletionDelta`:
`Role string`, `Content *string`, `FunctionCall FunctionCall` (note: not a
pointer in this generation). -/
structure StreamingChatCompletionDelta where
  role : String
  content : Option String
  functionCall : FunctionCall


/-- Shallow embedding of `openai.StreamingChatCompletionChoice`:
`Index int`, `Delta`, `FinishReason *string`. -/
structure StreamingChatCompletionChoice where
  index : Int
  delta : StreamingChatCompletionDelta
  finishReason : Option String


/-- Shallow embedding of `openai.StreamingChatCompletionObject`:
`ID string`, `Object string`, `Created int64`, `Model string`,
`Choices []StreamingChatCompletionChoice`. -/
structure StreamingChatCompletionObject where
  id : String
  object : String
  created : Int
  model : String
  choices : List StreamingChatCompletionChoice


/-- Zero value of `openai.StreamingChatCompletionObject`. -/
def StreamingChatCompletionObject.zero : StreamingChatCompletionObject :=
  ⟨"", "", 0, "", []⟩

end Openai

namespace Chat

/-- Shallow embedding of `chat.StreamingCompletionDelta`:
`Role string`, `Content *string`, `FunctionCall *FunctionCall` (a pointer in
this generation). -/
structure StreamingCompletionDelta where
  role : String
  content : Option String
  functionCall : Option FunctionCall


/-- Shallow embedding of `chat.StreamingCompletionChoice`. -/
structure StreamingCompletionChoice where
  index : Int
  delta : StreamingCompletionDelta
  finishReason : Option String


/-- Shallow embedding of `chat.StreamingCompletionObject`. -/
structure StreamingCompletionObject where
  id : String
  object : String
  created : Int
  model : String
  choices : List StreamingCompletionChoice


/-- Zero value of `chat.StreamingCompletionObject`. -/
def StreamingCompletionObject.zero : StreamingCompletionObject :=
  ⟨"", "", 0, "", []⟩

end Chat

/-- The sentinel literal `streamDoneString` from the source (identical constant
in both generations). -/
def streamDoneString : String := "[DONE]"

/-- Outcome of `UnmarshalSSEValue` on one data payload: the distinguished
terminal signal (the Go code returns `errStreamIsDone` / `ErrStreamDone`),
a decoded object, or a decode-error message. -/
inductive SSEValueResult (α : Type) where
  | done
  | ok (o : α)
  | err (msg : String)


/-- Shallow embedding of `openai.StreamingChatCompletionObject.UnmarshalSSEValue`.
The behavior of `encoding/json.Unmarshal` (standard library, outside this
repository) is a parameter `jsonUnmarshal`; the function from the source checks
the sentinel first and otherwise wraps the unmarshal error with the prefix from
its `fmt.Errorf` call. -/
def Openai.UnmarshalSSEValue
    (jsonUnmarshal : String → Except String Openai.StreamingChatCompletionObject)
    (v : String) : SSEValueResult Openai.StreamingChatCompletionObject :=
  if v = streamDoneString then .done
  else
    match jsonUnmarshal v with
    | .ok o => .ok o
    | .error e => .err ("error unmarshaling streaming chat completion object: " ++ e)

/-- Shallow embedding of `chat.StreamingCompletionObject.UnmarshalSSEValue`
(identical control flow, different error prefix). -/
def Chat.UnmarshalSSEValue
    (jsonUnmarshal : String → Except String Chat.StreamingCompletionObject)
    (v : String) : SSEValueResult Chat.StreamingCompletionObject :=
  if v = streamDoneString then .done
  else
    match jsonUnmarshal v with
    | .ok o => .ok o
    | .error e => .err ("error unmarshaling streaming completion object: " ++ e)

/-- Modelled from the spec: the record separator of the event-stream format is
a blank line.  `splitAtBoundary bs` splits `bs` at the first blank line
(two consecutive newline characters), returning the frame before it and the
remainder after it, or `none` when no boundary is present yet. -/
def splitAtBoundary : List Char → Option (List Char × List Char)
  | [] => none
  | c :: rest =>
    if c = '\n' ∧ rest.head? = some '\n' then some ([], rest.tail)
    else (splitAtBoundary rest).map (fun p => (c :: p.1, p.2))

/-- Modelled from the spec: the Stream Cursor owned by the Stream Scanner —
the remaining byte source (as the list of chunks the transport will deliver)
and the accumulation buffer of bytes not yet resolved into a complete frame. -/
structure StreamScanner where
  chunks : List (List Char)
  buffer : List Char

/-- Concatenation of the remaining source chunks. -/
def chunksJoin (cs : List (List Char)) : List Char := cs.foldr (· ++ ·) []

/-- All bytes a scanner state can still observe: its buffer followed by the
rest of the source. -/
def StreamScanner.flatten (s : StreamScanner) : List Char :=
  s.buffer ++ chunksJoin s.chunks

/-- Modelled from the spec: the scanner's incremental read loop.  It reads
chunks from the source into the buffer until a complete frame boundary is
found (returning the frame and the post-state) or the source is exhausted
(returning `none` and the post-state, whose buffer keeps the unresolved
bytes). -/
def scanNext : List (List Char) → List Char →
    Option (List Char) × List (List Char) × List Char
  | chunks, buf =>
    match splitAtBoundary buf with
    | some (f, rest) => (some f, chunks, rest)
    | none =>
      match chunks with
      | [] => (none, [], buf)
      | c :: cs => scanNext cs (buf ++ c)

/-- Splits a field line at its first colon, returning the field name and the
raw value. -/
def splitAtFirstColon : List Char → Option (List Char × List Char)
  | [] => none
  | c :: rest =>
    if c = ':' then some ([], rest)
    else (splitAtFirstColon rest).map (fun p => (c :: p.1, p.2))

/-- Drops the single optional space after the colon of a field line. -/
def stripLeadingSpace : List Char → List Char
  | ' ' :: rest => rest
  | l => l

/-- Modelled from the spec: the Event Frame Parser maps a raw frame to its
named fields (a record is a sequence of `field: value` lines; lines without a
colon are skipped; on duplicate fields the last value wins).  `dataValueOf`
returns the value of the `data` field, or `none` when the frame has no data
field. -/
def dataValueOf (frame : List Char) : Option (List Char) :=
  (frame.splitOn '\n').foldl
    (fun acc line =>
      match splitAtFirstColon line with
      | some (name, v) =>
        if name = "data".data then some (stripLeadingSpace v) else acc
      | none => acc)
    none

/-- Result of one `StreamScanner.UnmarshalNext` call, as consumed by `Next` in
the source: end of the byte source (`sseparser.ErrStreamEOF`), the terminal
sentinel (the `errStreamIsDone` / `ErrStreamDone` value propagated out of
`UnmarshalSSEValue`), a wrapped field-decoding error, or a decoded event. -/
inductive UnmarshalResult (α : Type) where
  | eof
  | done
  | fieldErr (msg : String)
  | ok (o : α)

/-- Modelled from the spec: the scanner's get-next operation.  It pulls the
next complete frame (reading incrementally), reports end-of-data when the
source is exhausted, hands the frame's data payload to the payload decoder
`decode`, and surfaces a malformed payload as a decode error carrying the
original payload text.  A frame with no data field leaves the event's zero
value in place (the target struct is simply not written to). -/
def unmarshalNext {α : Type} (decode : String → SSEValueResult α) (zero : α)
    (s : StreamScanner) : UnmarshalResult α × StreamScanner :=
  match scanNext s.chunks s.buffer with
  | (none, cs, b) => (.eof, ⟨cs, b⟩)
  | (some f, cs, b) =>
    match dataValueOf f with
    | none => (.ok zero, ⟨cs, b⟩)
    | some v =>
      match decode (String.mk v) with
      | .done => (.done, ⟨cs, b⟩)
      | .ok o => (.ok o, ⟨cs, b⟩)
      | .err e =>
        (.fieldErr ("error unmarshaling event field " ++ String.mk v ++ ": " ++ e),
         ⟨cs, b⟩)

/-- Error component of a `Next` return value (`nil, err` in Go). -/
inductive NextError where
  | abnormalEnd
  | streamDone
  | readError (msg : String)

/-- Return value of a `Next` call: a decoded object (`obj, nil`), the clean
no-more-items signal (`nil, nil`), or an error (`nil, err`). -/
inductive NextResult (α : Type) where
  | obj (o : α)
  | complete
  | err (e : NextError)

/-- Shallow embedding of `openai.StreamingChatCompletionResponse.Next`: both
`sseparser.ErrStreamEOF` and `errStreamIsDone` are mapped to the clean
`nil, nil` return; any other scanner error is wrapped and returned. -/
def Openai.next
    (jsonUnmarshal : String → Except String Openai.StreamingChatCompletionObject)
    (s : StreamScanner) : NextResult Openai.StreamingChatCompletionObject × StreamScanner :=
  match unmarshalNext (Openai.UnmarshalSSEValue jsonUnmarshal)
      Openai.StreamingChatCompletionObject.zero s with
  | (.eof, s') => (.complete, s')
  | (.done, s') => (.complete, s')
  | (.fieldErr e, s') =>
    (.err (.readError ("error reading next object from stream: " ++ e)), s')
  | (.ok o, s') => (.obj o, s')

/-- Shallow embedding of `chat.StreamingCompletionResponse.Next`:
`sseparser.ErrStreamEOF` is wrapped into the abnormal-end error
(`stream ended before [DONE]: ...`), the sentinel case returns
`nil, ErrStreamDone`, and any other scanner error is wrapped. -/
def Chat.next
    (jsonUnmarshal : String → Except String Chat.StreamingCompletionObject)
    (s : StreamScanner) : NextResult Chat.StreamingCompletionObject × StreamScanner :=
  match unmarshalNext (Chat.UnmarshalSSEValue jsonUnmarshal)
      Chat.StreamingCompletionObject.zero s with
  | (.eof, s') => (.err .abnormalEnd, s')
  | (.done, s') => (.err .streamDone, s')
  | (.fieldErr e, s') =>
    (.err (.readError ("error reading next object from stream: " ++ e)), s')
  | (.ok o, s') => (.obj o, s')

/-- Shallow embedding of `openai.newStreamingChatCompletionResponse`: the
response handle wraps a fresh scanner over the response body (here: the byte
source the transport will deliver, with an empty accumulation buffer). -/
def newStreamingChatCompletionResponse (source : List (List Char)) : StreamScanner :=
  ⟨source, []⟩

/-- Shallow embedding of `chat.newStreamingCompletionResponse` (same
construction as the `openai` generation). -/
def newStreamingCompletionResponse (source : List (List Char)) : StreamScanner :=
  ⟨source, []⟩

/-- Concrete stand-in for `encoding/json.Unmarshal` that fails on every input,
used to instantiate the `jsonUnmarshal` parameter in concrete evaluations. -/
def Openai.unmarshalAlwaysErr : String → Except String Openai.StreamingChatCompletionObject :=
  fun _ => Except.error "invalid character"

/-- Concrete stand-in for `encoding/json.Unmarshal` that fails on every input
(`chat` generation). -/
def Chat.unmarshalAlwaysErr : String → Except String Chat.StreamingCompletionObject :=
  fun _ => Except.error "invalid character"

/-- Claim C1, counterexample: on a stream whose byte source is exhausted
without a `[DONE]` frame ever appearing (here: the empty source),
`openai.StreamingChatCompletionResponse.Next` maps `sseparser.ErrStreamEOF` to
the clean `nil, nil` no-more-items result — not to an error, contradicting the
claim as stated for this generation. -/
theorem C1_counterexample :
    (Openai.next Openai.unmarshalAlwaysErr ⟨[], []⟩).1 = NextResult.complete := by
  rfl

/-- Claim C1, amended: when a pull encounters end-of-source with no complete
frame available, `chat.StreamingCompletionResponse.Next` returns the distinct
abnormal-end error (`stream ended before [DONE]`), whereas
`openai.StreamingChatCompletionResponse.Next` instead returns the clean
no-more-items result. -/
theorem C1_amended_abnormal_end
    (juC : String → Except String Chat.StreamingCompletionObject)
    (juO : String → Except String Openai.StreamingChatCompletionObject)
    (s : StreamScanner) (h : (scanNext s.chunks s.buffer).1 = none) :
    (Chat.next juC s).1 = NextResult.err NextError.abnormalEnd ∧
    (Openai.next juO s).1 = NextResult.complete := by
  rcases hs : scanNext s.chunks s.buffer with ⟨fo, cs, b⟩
  rw [hs] at h
  simp only at h
  subst h
  constructor
  · simp only [Chat.next, unmarshalNext, hs]
  · simp only [Openai.next, unmarshalNext, hs]

/-- Claim C1, amended, witness at the empty exhausted source. -/
theorem C1_amended_abnormal_end_witness :
    (scanNext ([] : List (List Char)) []).1 = none ∧
    ((Chat.next Chat.unmarshalAlwaysErr ⟨[], []⟩).1 = NextResult.err NextError.abnormalEnd ∧
     (Openai.next Openai.unmarshalAlwaysErr ⟨[], []⟩).1 = NextResult.complete) :=
  ⟨rfl, C1_amended_abnormal_end Chat.unmarshalAlwaysErr Openai.unmarshalAlwaysErr ⟨[], []⟩ rfl⟩

/-- Claim C2 (code bug): on the pull that encounters the `[DONE]` sentinel,
`chat.StreamingCompletionResponse.Next` returns `nil, ErrStreamDone` — a
non-nil error, not the clean `nil, nil` completion its own doc comment
(`When the stream is complete, it returns nil, nil.`) and the package's
integration test (`require.NoError` around every `Next` call) promise.  The
`openai` generation returns the clean completion on the same input. -/
theorem C2_sentinel_pull_divergence :
    (Chat.next Chat.unmarshalAlwaysErr
        (newStreamingCompletionResponse ["data: [DONE]\n\n".data])).1
      = NextResult.err NextError.streamDone ∧
    (Openai.next Openai.unmarshalAlwaysErr
        (newStreamingChatCompletionResponse ["data: [DONE]\n\n".data])).1
      = NextResult.complete := by
  exact ⟨rfl, rfl⟩

/-- Claim C3: the payload decoder short-circuits on the exact sentinel literal
`[DONE]`, reporting the distinguished terminal signal no matter what the JSON
decoder would do (in particular it never reports a malformed-frame error
there), and on every other payload it returns a decoded Streaming Object
exactly when JSON unmarshaling succeeds and a decode error exactly when it
fails — in both client generations. -/
theorem C3_sentinel_precedence
    (juO : String → Except String Openai.StreamingChatCompletionObject)
    (juC : String → Except String Chat.StreamingCompletionObject)
    (v : String) (hv : v ≠ streamDoneString) :
    Openai.UnmarshalSSEValue juO streamDoneString = SSEValueResult.done ∧
    Chat.UnmarshalSSEValue juC streamDoneString = SSEValueResult.done ∧
    ((∃ o, juO v = Except.ok o ∧ Openai.UnmarshalSSEValue juO v = SSEValueResult.ok o) ∨
     (∃ e, juO v = Except.error e ∧
        ∃ m, Openai.UnmarshalSSEValue juO v = SSEValueResult.err m)) ∧
    ((∃ o, juC v = Except.ok o ∧ Chat.UnmarshalSSEValue juC v = SSEValueResult.ok o) ∨
     (∃ e, juC v = Except.error e ∧
        ∃ m, Chat.UnmarshalSSEValue juC v = SSEValueResult.err m)) := by
  refine ⟨by simp [Openai.UnmarshalSSEValue], by simp [Chat.UnmarshalSSEValue], ?_, ?_⟩
  · cases ho : juO v with
    | ok o => exact Or.inl ⟨o, rfl, by simp [Openai.UnmarshalSSEValue, hv, ho]⟩
    | error e =>
      exact Or.inr ⟨e, rfl, "error unmarshaling streaming chat completion object: " ++ e,
        by simp [Openai.UnmarshalSSEValue, hv, ho]⟩
  · cases hc : juC v with
    | ok o => exact Or.inl ⟨o, rfl, by simp [Chat.UnmarshalSSEValue, hv, hc]⟩
    | error e =>
      exact Or.inr ⟨e, rfl, "error unmarshaling streaming completion object: " ++ e,
        by simp [Chat.UnmarshalSSEValue, hv, hc]⟩

/-- Claim C3, witness at the payload `x`. -/
theorem C3_sentinel_precedence_witness :
    ("x" : String) ≠ streamDoneString ∧
    (Openai.UnmarshalSSEValue Openai.unmarshalAlwaysErr streamDoneString = SSEValueResult.done ∧
     Chat.UnmarshalSSEValue Chat.unmarshalAlwaysErr streamDoneString = SSEValueResult.done ∧
     ((∃ o, Openai.unmarshalAlwaysErr "x" = Except.ok o ∧
         Openai.UnmarshalSSEValue Openai.unmarshalAlwaysErr "x" = SSEValueResult.ok o) ∨
      (∃ e, Openai.unmarshalAlwaysErr "x" = Except.error e ∧
         ∃ m, Openai.UnmarshalSSEValue Openai.unmarshalAlwaysErr "x" = SSEValueResult.err m)) ∧
     ((∃ o, Chat.unmarshalAlwaysErr "x" = Except.ok o ∧
         Chat.UnmarshalSSEValue Chat.unmarshalAlwaysErr "x" = SSEValueResult.ok o) ∨
      (∃ e, Chat.unmarshalAlwaysErr "x" = Except.error e ∧
         ∃ m, Chat.UnmarshalSSEValue Chat.unmarshalAlwaysErr "x" = SSEValueResult.err m))) :=
  ⟨by decide,
   C3_sentinel_precedence Openai.unmarshalAlwaysErr Chat.unmarshalAlwaysErr "x" (by decide)⟩


theorem splitAtBoundary_append : ∀ (buf x f r : List Char),
    splitAtBoundary buf = some (f, r) →
    splitAtBoundary (buf ++ x) = some (f, r ++ x) := by
  intro buf
  induction buf with
  | nil => intro x f r h; simp [splitAtBoundary] at h
  | cons c rest ih =>
    intro x f r h
    by_cases hc : c = '\n' ∧ rest.head? = some '\n'
    · rw [splitAtBoundary, if_pos hc] at h
      cases rest with
      | nil => simp at hc
      | cons d ds =>
        simp only [Option.some.injEq, Prod.mk.injEq] at h
        obtain ⟨hf, hr⟩ := h
        subst hf hr
        rw [List.cons_append, splitAtBoundary, if_pos (by simpa using hc)]
        simp
    · rw [splitAtBoundary, if_neg hc] at h
      cases rest with
      | nil => simp [splitAtBoundary] at h
      | cons d ds =>
        obtain ⟨⟨f', r'⟩, hfr, heq⟩ := Option.map_eq_some'.mp h
        simp only [Prod.mk.injEq] at heq
        obtain ⟨hf, hr⟩ := heq
        subst hf hr
        rw [List.cons_append, splitAtBoundary, if_neg (by simpa using hc)]
        rw [ih x f' r' hfr]
        rfl

/-- Spec-level single scan step on a fully buffered byte sequence. -/
def specScan (bs : List Char) : Option (List Char) × List Char :=
  match splitAtBoundary bs with
  | some (f, r) => (some f, r)
  | none => (none, bs)

theorem scanNext_flatten : ∀ (chunks : List (List Char)) (buf : List Char),
    ((scanNext chunks buf).1,
     (scanNext chunks buf).2.2 ++ chunksJoin (scanNext chunks buf).2.1)
      = specScan (buf ++ chunksJoin chunks) := by
  intro chunks
  induction chunks with
  | nil =>
    intro buf
    rw [scanNext]
    cases h : splitAtBoundary buf with
    | none => simp [specScan, h, chunksJoin]
    | some p =>
      obtain ⟨f, r⟩ := p
      simp [specScan, h, chunksJoin]
  | cons c cs ih =>
    intro buf
    rw [scanNext]
    cases h : splitAtBoundary buf with
    | some p =>
      obtain ⟨f, r⟩ := p
      have h2 := splitAtBoundary_append buf (chunksJoin (c :: cs)) f r h
      simp only [specScan, chunksJoin, List.foldr_cons] at h2 ⊢
      rw [h2]
    | none =>
      have := ih (buf ++ c)
      simp only [specScan, chunksJoin, List.foldr_cons] at this ⊢
      rw [List.append_assoc] at this
      exact this


theorem unmarshalNext_flatten {α : Type} (d : String → SSEValueResult α) (z : α)
    (s₁ s₂ : StreamScanner) (h : s₁.flatten = s₂.flatten) :
    (unmarshalNext d z s₁).1 = (unmarshalNext d z s₂).1 ∧
    (unmarshalNext d z s₁).2.flatten = (unmarshalNext d z s₂).2.flatten := by
  have h1 := scanNext_flatten s₁.chunks s₁.buffer
  have h2 := scanNext_flatten s₂.chunks s₂.buffer
  rw [show s₁.buffer ++ chunksJoin s₁.chunks = s₁.flatten from rfl] at h1
  rw [show s₂.buffer ++ chunksJoin s₂.chunks = s₂.flatten from rfl] at h2
  rw [h, ← h2] at h1
  rcases hs1 : scanNext s₁.chunks s₁.buffer with ⟨fo₁, cs₁, b₁⟩
  rcases hs2 : scanNext s₂.chunks s₂.buffer with ⟨fo₂, cs₂, b₂⟩
  rw [hs1, hs2] at h1
  simp only [Prod.mk.injEq] at h1
  obtain ⟨hfo, hfl⟩ := h1
  subst hfo
  cases fo₁ with
  | none =>
    constructor
    · simp [unmarshalNext, hs1, hs2]
    · simp [unmarshalNext, hs1, hs2, StreamScanner.flatten, hfl]
  | some f =>
    cases hd : dataValueOf f with
    | none =>
      constructor
      · simp [unmarshalNext, hs1, hs2, hd]
      · simp [unmarshalNext, hs1, hs2, hd, StreamScanner.flatten, hfl]
    | some v =>
      cases hdec : d (String.mk v) with
      | done =>
        constructor
        · simp [unmarshalNext, hs1, hs2, hd, hdec]
        · simp [unmarshalNext, hs1, hs2, hd, hdec, StreamScanner.flatten, hfl]
      | ok o =>
        constructor
        · simp [unmarshalNext, hs1, hs2, hd, hdec]
        · simp [unmarshalNext, hs1, hs2, hd, hdec, StreamScanner.flatten, hfl]
      | err e =>
        constructor
        · simp [unmarshalNext, hs1, hs2, hd, hdec]
        · simp [unmarshalNext, hs1, hs2, hd, hdec, StreamScanner.flatten, hfl]

/-- Pulls `n` results from a handle, recording every return value in order. -/
def pullSeq {α : Type} (nextFn : StreamScanner → NextResult α × StreamScanner) :
    Nat → StreamScanner → List (NextResult α)
  | 0, _ => []
  | n + 1, s => (nextFn s).1 :: pullSeq nextFn n (nextFn s).2

theorem openaiNext_flatten
    (ju : String → Except String Openai.StreamingChatCompletionObject)
    (s₁ s₂ : StreamScanner) (h : s₁.flatten = s₂.flatten) :
    (Openai.next ju s₁).1 = (Openai.next ju s₂).1 ∧
    (Openai.next ju s₁).2.flatten = (Openai.next ju s₂).2.flatten := by
  obtain ⟨h1, h2⟩ := unmarshalNext_flatten (Openai.UnmarshalSSEValue ju)
    Openai.StreamingChatCompletionObject.zero s₁ s₂ h
  rcases hu1 : unmarshalNext (Openai.UnmarshalSSEValue ju)
    Openai.StreamingChatCompletionObject.zero s₁ with ⟨r₁, t₁⟩
  rcases hu2 : unmarshalNext (Openai.UnmarshalSSEValue ju)
    Openai.StreamingChatCompletionObject.zero s₂ with ⟨r₂, t₂⟩
  rw [hu1, hu2] at h1 h2
  simp only at h1 h2
  subst h1
  cases r₁ <;> simp [Openai.next, hu1, hu2, h2]

theorem chatNext_flatten
    (ju : String → Except String Chat.StreamingCompletionObject)
    (s₁ s₂ : StreamScanner) (h : s₁.flatten = s₂.flatten) :
    (Chat.next ju s₁).1 = (Chat.next ju s₂).1 ∧
    (Chat.next ju s₁).2.flatten = (Chat.next ju s₂).2.flatten := by
  obtain ⟨h1, h2⟩ := unmarshalNext_flatten (Chat.UnmarshalSSEValue ju)
    Chat.StreamingCompletionObject.zero s₁ s₂ h
  rcases hu1 : unmarshalNext (Chat.UnmarshalSSEValue ju)
    Chat.StreamingCompletionObject.zero s₁ with ⟨r₁, t₁⟩
  rcases hu2 : unmarshalNext (Chat.UnmarshalSSEValue ju)
    Chat.StreamingCompletionObject.zero s₂ with ⟨r₂, t₂⟩
  rw [hu1, hu2] at h1 h2
  simp only at h1 h2
  subst h1
  cases r₁ <;> simp [Chat.next, hu1, hu2, h2]

theorem pullSeq_openai_flatten
    (ju : String → Except String Openai.StreamingChatCompletionObject) :
    ∀ (n : Nat) (s₁ s₂ : StreamScanner), s₁.flatten = s₂.flatten →
    pullSeq (Openai.next ju) n s₁ = pullSeq (Openai.next ju) n s₂ := by
  intro n
  induction n with
  | zero => intro s₁ s₂ _; rfl
  | succ n ih =>
    intro s₁ s₂ h
    obtain ⟨h1, h2⟩ := openaiNext_flatten ju s₁ s₂ h
    simp only [pullSeq, h1, List.cons.injEq, true_and]
    exact ih _ _ h2

theorem pullSeq_chat_flatten
    (ju : String → Except String Chat.StreamingCompletionObject) :
    ∀ (n : Nat) (s₁ s₂ : StreamScanner), s₁.flatten = s₂.flatten →
    pullSeq (Chat.next ju) n s₁ = pullSeq (Chat.next ju) n s₂ := by
  intro n
  induction n with
  | zero => intro s₁ s₂ _; rfl
  | succ n ih =>
    intro s₁ s₂ h
    obtain ⟨h1, h2⟩ := chatNext_flatten ju s₁ s₂ h
    simp only [pullSeq, h1, List.cons.injEq, true_and]
    exact ih _ _ h2


/-- Claim C7: the decoded output is independent of read chunking — two byte
sources that deliver the same bytes in different chunkings make the streaming
response handle emit exactly the same ordered sequence of results (decoded
objects, completion signals, and errors) over any number of pulls, in both
client generations. -/
theorem C7_chunking_independence
    (juO : String → Except String Openai.StreamingChatCompletionObject)
    (juC : String → Except String Chat.StreamingCompletionObject)
    (n : Nat) (src₁ src₂ : List (List Char))
    (h : chunksJoin src₁ = chunksJoin src₂) :
    pullSeq (Openai.next juO) n (newStreamingChatCompletionResponse src₁)
      = pullSeq (Openai.next juO) n (newStreamingChatCompletionResponse src₂) ∧
    pullSeq (Chat.next juC) n (newStreamingCompletionResponse src₁)
      = pullSeq (Chat.next juC) n (newStreamingCompletionResponse src₂) := by
  constructor
  · exact pullSeq_openai_flatten juO n _ _
      (by simpa [newStreamingChatCompletionResponse, StreamScanner.flatten] using h)
  · exact pullSeq_chat_flatten juC n _ _
      (by simpa [newStreamingCompletionResponse, StreamScanner.flatten] using h)

/-- Claim C7, witness: one frame plus the sentinel delivered as a single block
versus one byte per chunk. -/
theorem C7_chunking_independence_witness :
    chunksJoin ["data: hi\n\ndata: [DONE]\n\n".data]
      = chunksJoin ("data: hi\n\ndata: [DONE]\n\n".data.map (fun c => [c])) ∧
    (pullSeq (Openai.next Openai.unmarshalAlwaysErr) 3
        (newStreamingChatCompletionResponse ["data: hi\n\ndata: [DONE]\n\n".data])
      = pullSeq (Openai.next Openai.unmarshalAlwaysErr) 3
        (newStreamingChatCompletionResponse
          ("data: hi\n\ndata: [DONE]\n\n".data.map (fun c => [c]))) ∧
     pullSeq (Chat.next Chat.unmarshalAlwaysErr) 3
        (newStreamingCompletionResponse ["data: hi\n\ndata: [DONE]\n\n".data])
      = pullSeq (Chat.next Chat.unmarshalAlwaysErr) 3
        (newStreamingCompletionResponse
          ("data: hi\n\ndata: [DONE]\n\n".data.map (fun c => [c])))) :=
  ⟨by rfl,
   C7_chunking_independence Openai.unmarshalAlwaysErr Chat.unmarshalAlwaysErr 3
     ["data: hi\n\ndata: [DONE]\n\n".data]
     ("data: hi\n\ndata: [DONE]\n\n".data.map (fun c => [c])) (by rfl)⟩

/-- Boolean test that `needle` occurs as a contiguous substring of the second
list. -/
def containsChars (needle : List Char) : List Char → Bool
  | [] => needle.isPrefixOf []
  | c :: rest => needle.isPrefixOf (c :: rest) || containsChars needle rest

theorem isPrefixOf_append_self : ∀ (v b : List Char), v.isPrefixOf (v ++ b) = true := by
  intro v
  induction v with
  | nil => intro b; simp [List.isPrefixOf]
  | cons c cs ih => intro b; simp [List.isPrefixOf, ih]

theorem containsChars_of_isPrefixOf (v h : List Char) (hp : v.isPrefixOf h = true) :
    containsChars v h = true := by
  cases h with
  | nil => exact hp
  | cons c rest => simp [containsChars, hp]

theorem containsChars_prepend : ∀ (a v t : List Char),
    containsChars v t = true → containsChars v (a ++ t) = true := by
  intro a
  induction a with
  | nil => intro v t h; exact h
  | cons c cs ih =>
    intro c' t h
    simp only [List.cons_append, containsChars, Bool.or_eq_true]
    exact Or.inr (ih c' t h)

theorem containsChars_self_append (v b : List Char) :
    containsChars v (v ++ b) = true :=
  containsChars_of_isPrefixOf v (v ++ b) (isPrefixOf_append_self v b)

/-- Claim C4: when the next frame's data payload is neither the sentinel nor
valid JSON for the streaming object shape, the pull surfaces a
malformed-frame decode error whose message carries the original payload text,
in both client generations. -/
theorem C4_malformed_error_carries_text
    (juO : String → Except String Openai.StreamingChatCompletionObject)
    (juC : String → Except String Chat.StreamingCompletionObject)
    (s : StreamScanner) (f v : List Char) (cs : List (List Char)) (b : List Char)
    (eO eC : String)
    (hscan : scanNext s.chunks s.buffer = (some f, cs, b))
    (hdata : dataValueOf f = some v)
    (hnd : String.mk v ≠ streamDoneString)
    (hjuO : juO (String.mk v) = Except.error eO)
    (hjuC : juC (String.mk v) = Except.error eC) :
    (∃ m, (Openai.next juO s).1 = NextResult.err (NextError.readError m) ∧
       containsChars v m.data = true) ∧
    (∃ m, (Chat.next juC s).1 = NextResult.err (NextError.readError m) ∧
       containsChars v m.data = true) := by
  constructor
  · refine ⟨"error reading next object from stream: " ++
      ("error unmarshaling event field " ++ String.mk v ++ ": " ++
        ("error unmarshaling streaming chat completion object: " ++ eO)), ?_, ?_⟩
    · simp only [Openai.next, unmarshalNext, hscan, hdata, Openai.UnmarshalSSEValue,
        if_neg hnd, hjuO]
    · simp only [String.data_append, List.append_assoc]
      exact containsChars_prepend _ _ _ (containsChars_prepend _ _ _
        (containsChars_self_append v _))
  · refine ⟨"error reading next object from stream: " ++
      ("error unmarshaling event field " ++ String.mk v ++ ": " ++
        ("error unmarshaling streaming completion object: " ++ eC)), ?_, ?_⟩
    · simp only [Chat.next, unmarshalNext, hscan, hdata, Chat.UnmarshalSSEValue,
        if_neg hnd, hjuC]
    · simp only [String.data_append, List.append_assoc]
      exact containsChars_prepend _ _ _ (containsChars_prepend _ _ _
        (containsChars_self_append v _))

/-- Claim C4, witness at the spec's scenario payload `{not valid json}`. -/
theorem C4_malformed_error_carries_text_witness :
    scanNext (["data: \x7bnot valid json\x7d\n\n".data] : List (List Char)) []
      = (some "data: \x7bnot valid json\x7d".data, [], []) ∧
    dataValueOf "data: \x7bnot valid json\x7d".data = some "\x7bnot valid json\x7d".data ∧
    String.mk "\x7bnot valid json\x7d".data ≠ streamDoneString ∧
    ((∃ m, (Openai.next Openai.unmarshalAlwaysErr
        ⟨["data: \x7bnot valid json\x7d\n\n".data], []⟩).1
          = NextResult.err (NextError.readError m) ∧
        containsChars "\x7bnot valid json\x7d".data m.data = true) ∧
     (∃ m, (Chat.next Chat.unmarshalAlwaysErr
        ⟨["data: \x7bnot valid json\x7d\n\n".data], []⟩).1
          = NextResult.err (NextError.readError m) ∧
        containsChars "\x7bnot valid json\x7d".data m.data = true)) :=
  ⟨rfl, rfl, by decide,
   C4_malformed_error_carries_text Openai.unmarshalAlwaysErr Chat.unmarshalAlwaysErr
     ⟨["data: \x7bnot valid json\x7d\n\n".data], []⟩
     "data: \x7bnot valid json\x7d".data "\x7bnot valid json\x7d".data [] []
     "invalid character" "invalid character" rfl rfl (by decide) rfl rfl⟩


/-- Wire encoding of a Go `*string` field without `omitempty`: a nil pointer
marshals as JSON `null`. -/
def optStrToJson : Option String → Json
  | none => Json.null
  | some s => Json.str s

/-- Field lookup on a JSON object (how `encoding/json` matches struct tags
against object keys; non-objects carry no fields). -/
def Json.getField : Json → String → Option Json
  | Json.obj fields, k => fields.lookup k
  | _, _ => none

/-- Unmarshaling a JSON object field into a Go `string`: a missing field or a
JSON `null` leaves the zero value, a string decodes, anything else is a type
error. -/
def decodeStringField (j : Json) (k : String) : Except String String :=
  match j.getField k with
  | none => .ok ""
  | some Json.null => .ok ""
  | some (Json.str s) => .ok s
  | some _ => .error ("cannot unmarshal value into string field " ++ k)

/-- Unmarshaling a JSON object field into a Go `*string`. -/
def decodeOptStringField (j : Json) (k : String) : Except String (Option String) :=
  match j.getField k with
  | none => .ok none
  | some Json.null => .ok none
  | some (Json.str s) => .ok (some s)
  | some _ => .error ("cannot unmarshal value into string pointer field " ++ k)

/-- Unmarshaling a JSON object field into a Go `int`/`int64`. -/
def decodeIntField (j : Json) (k : String) : Except String Int :=
  match j.getField k with
  | none => .ok 0
  | some Json.null => .ok 0
  | some (Json.num n) => .ok n
  | some _ => .error ("cannot unmarshal value into integer field " ++ k)

/-- Unmarshaling a JSON object field into a `json.RawMessage`: any JSON value
is captured verbatim; a missing field leaves the zero (nil) raw message, which
denotes the document `null` in this model. -/
def decodeRawField (j : Json) (k : String) : Except String Json :=
  match j.getField k with
  | none => .ok Json.null
  | some v => .ok v

/-- Wire encoding of `FunctionCall` per its struct tags
(`name`, `arguments`). -/
def FunctionCall.toJson (f : FunctionCall) : Json :=
  Json.obj [("name", Json.str f.name), ("arguments", f.arguments)]

/-- Wire decoding of `FunctionCall` (JSON `null` into a struct is a no-op,
leaving the zero value). -/
def FunctionCall.fromJson (j : Json) : Except String FunctionCall :=
  match j with
  | Json.null => .ok FunctionCall.zero
  | Json.obj _ =>
    match decodeStringField j "name" with
    | .error e => .error e
    | .ok name =>
      match decodeRawField j "arguments" with
      | .error e => .error e
      | .ok args => .ok ⟨name, args⟩
  | _ => .error "cannot unmarshal value into FunctionCall"

/-- Wire roundtrip for `FunctionCall`. -/
theorem functionCall_roundtrip (f : FunctionCall) :
    FunctionCall.fromJson f.toJson = Except.ok f := rfl

/-- Wire encoding of `openai.StreamingChatCompletionDelta` per its struct tags
(`role`, `content`, `function_call`). -/
def Openai.StreamingChatCompletionDelta.toJson (d : Openai.StreamingChatCompletionDelta) : Json :=
  Json.obj [("role", Json.str d.role), ("content", optStrToJson d.content),
    ("function_call", d.functionCall.toJson)]

/-- Zero value of `openai.StreamingChatCompletionDelta`. -/
def Openai.StreamingChatCompletionDelta.zero : Openai.StreamingChatCompletionDelta :=
  ⟨"", none, FunctionCall.zero⟩

/-- Wire decoding of `openai.StreamingChatCompletionDelta`. -/
def Openai.StreamingChatCompletionDelta.fromJson (j : Json) :
    Except String Openai.StreamingChatCompletionDelta :=
  match j with
  | Json.null => .ok Openai.StreamingChatCompletionDelta.zero
  | Json.obj _ =>
    match decodeStringField j "role" with
    | .error e => .error e
    | .ok role =>
      match decodeOptStringField j "content" with
      | .error e => .error e
      | .ok content =>
        match (match j.getField "function_call" with
               | none => FunctionCall.fromJson Json.null
               | some v => FunctionCall.fromJson v) with
        | .error e => .error e
        | .ok fc => .ok ⟨role, content, fc⟩
  | _ => .error "cannot unmarshal value into StreamingChatCompletionDelta"

/-- Wire roundtrip for `openai.StreamingChatCompletionDelta`. -/
theorem openaiDelta_roundtrip (d : Openai.StreamingChatCompletionDelta) :
    Openai.StreamingChatCompletionDelta.fromJson d.toJson = Except.ok d := by
  obtain ⟨role, content, fc⟩ := d
  cases content <;> rfl


/-- Wire encoding of `openai.StreamingChatCompletionChoice` per its struct tags
(`index`, `delta`, `finish_reason`). -/
def Openai.StreamingChatCompletionChoice.toJson (c : Openai.StreamingChatCompletionChoice) : Json :=
  Json.obj [("index", Json.num c.index), ("delta", c.delta.toJson),
    ("finish_reason", optStrToJson c.finishReason)]

/-- Wire decoding of `openai.StreamingChatCompletionChoice`. -/
def Openai.StreamingChatCompletionChoice.fromJson (j : Json) :
    Except String Openai.StreamingChatCompletionChoice :=
  match j with
  | Json.null => .ok ⟨0, Openai.StreamingChatCompletionDelta.zero, none⟩
  | Json.obj _ =>
    match decodeIntField j "index" with
    | .error e => .error e
    | .ok index =>
      match (match j.getField "delta" with
             | none => Openai.StreamingChatCompletionDelta.fromJson Json.null
             | some v => Openai.StreamingChatCompletionDelta.fromJson v) with
      | .error e => .error e
      | .ok delta =>
        match decodeOptStringField j "finish_reason" with
        | .error e => .error e
        | .ok fr => .ok ⟨index, delta, fr⟩
  | _ => .error "cannot unmarshal value into StreamingChatCompletionChoice"

/-- Wire roundtrip for `openai.StreamingChatCompletionChoice`. -/
theorem openaiChoice_roundtrip
    (c : Openai.StreamingChatCompletionChoice) :
    Openai.StreamingChatCompletionChoice.fromJson c.toJson = Except.ok c := by
  obtain ⟨index, ⟨role, content, fc⟩, fr⟩ := c
  cases content <;> cases fr <;> rfl

/-- Loop invariant for decoding an encoded choices array element by element. -/
theorem openaiChoices_roundtrip_loop :
    ∀ (l : List Openai.StreamingChatCompletionChoice)
      (acc : List Openai.StreamingChatCompletionChoice),
    List.mapM.loop Openai.StreamingChatCompletionChoice.fromJson
      (l.map Openai.StreamingChatCompletionChoice.toJson) acc
      = Except.ok (acc.reverse ++ l) := by
  intro l
  induction l with
  | nil => intro acc; simp [List.mapM.loop]; rfl
  | cons c cs ih =>
    intro acc
    simp only [List.map_cons, List.mapM.loop, openaiChoice_roundtrip,
      bind, Except.bind, ih]
    simp

/-- Wire encoding of `openai.StreamingChatCompletionObject` per its struct tags
(`id`, `object`, `created`, `model`, `choices`). -/
def Openai.StreamingChatCompletionObject.toJson (o : Openai.StreamingChatCompletionObject) : Json :=
  Json.obj [("id", Json.str o.id), ("object", Json.str o.object),
    ("created", Json.num o.created), ("model", Json.str o.model),
    ("choices", Json.arr (o.choices.map Openai.StreamingChatCompletionChoice.toJson))]

/-- Wire decoding of `openai.StreamingChatCompletionObject`. -/
def Openai.StreamingChatCompletionObject.fromJson (j : Json) :
    Except String Openai.StreamingChatCompletionObject :=
  match j with
  | Json.null => .ok Openai.StreamingChatCompletionObject.zero
  | Json.obj _ =>
    match decodeStringField j "id" with
    | .error e => .error e
    | .ok id =>
      match decodeStringField j "object" with
      | .error e => .error e
      | .ok object =>
        match decodeIntField j "created" with
        | .error e => .error e
        | .ok created =>
          match decodeStringField j "model" with
          | .error e => .error e
          | .ok model =>
            match (match j.getField "choices" with
                   | none => Except.ok []
                   | some Json.null => Except.ok []
                   | some (Json.arr xs) =>
                     xs.mapM Openai.StreamingChatCompletionChoice.fromJson
                   | some _ =>
                     Except.error "cannot unmarshal value into choices field") with
            | .error e => .error e
            | .ok choices => .ok ⟨id, object, created, model, choices⟩
  | _ => .error "cannot unmarshal value into StreamingChatCompletionObject"

/-- Wire roundtrip for `openai.StreamingChatCompletionObject`. -/
theorem openaiObject_roundtrip
    (o : Openai.StreamingChatCompletionObject) :
    Openai.StreamingChatCompletionObject.fromJson o.toJson = Except.ok o := by
  obtain ⟨id, object, created, model, choices⟩ := o
  simp [Openai.StreamingChatCompletionObject.toJson,
    Openai.StreamingChatCompletionObject.fromJson, decodeStringField, decodeIntField,
    Json.getField, List.lookup, List.mapM, openaiChoices_roundtrip_loop]


/-- Wire encoding of a Go `*FunctionCall` field without `omitempty`. -/
def optFunctionCallToJson : Option FunctionCall → Json
  | none => Json.null
  | some f => f.toJson

/-- Wire encoding of `chat.StreamingCompletionDelta` per its struct tags. -/
def Chat.StreamingCompletionDelta.toJson (d : Chat.StreamingCompletionDelta) : Json :=
  Json.obj [("role", Json.str d.role), ("content", optStrToJson d.content),
    ("function_call", optFunctionCallToJson d.functionCall)]

/-- Zero value of `chat.StreamingCompletionDelta`. -/
def Chat.StreamingCompletionDelta.zero : Chat.StreamingCompletionDelta :=
  ⟨"", none, none⟩

/-- Wire decoding of `chat.StreamingCompletionDelta`. -/
def Chat.StreamingCompletionDelta.fromJson (j : Json) :
    Except String Chat.StreamingCompletionDelta :=
  match j with
  | Json.null => .ok Chat.StreamingCompletionDelta.zero
  | Json.obj _ =>
    match decodeStringField j "role" with
    | .error e => .error e
    | .ok role =>
      match decodeOptStringField j "content" with
      | .error e => .error e
      | .ok content =>
        match (match j.getField "function_call" with
               | none => Except.ok none
               | some Json.null => Except.ok none
               | some v =>
                 match FunctionCall.fromJson v with
                 | .error e => Except.error e
                 | .ok f => Except.ok (some f)) with
        | .error e => .error e
        | .ok fc => .ok ⟨role, content, fc⟩
  | _ => .error "cannot unmarshal value into StreamingCompletionDelta"

/-- Wire roundtrip for `chat.StreamingCompletionDelta`. -/
theorem chatDelta_roundtrip (d : Chat.StreamingCompletionDelta) :
    Chat.StreamingCompletionDelta.fromJson d.toJson = Except.ok d := by
  obtain ⟨role, content, fc⟩ := d
  cases content <;> cases fc <;> rfl

/-- Wire encoding of `chat.StreamingCompletionChoice` per its struct tags. -/
def Chat.StreamingCompletionChoice.toJson (c : Chat.StreamingCompletionChoice) : Json :=
  Json.obj [("index", Json.num c.index), ("delta", c.delta.toJson),
    ("finish_reason", optStrToJson c.finishReason)]

/-- Wire decoding of `chat.StreamingCompletionChoice`. -/
def Chat.StreamingCompletionChoice.fromJson (j : Json) :
    Except String Chat.StreamingCompletionChoice :=
  match j with
  | Json.null => .ok ⟨0, Chat.StreamingCompletionDelta.zero, none⟩
  | Json.obj _ =>
    match decodeIntField j "index" with
    | .error e => .error e
    | .ok index =>
      match (match j.getField "delta" with
             | none => Chat.StreamingCompletionDelta.fromJson Json.null
             | some v => Chat.StreamingCompletionDelta.fromJson v) with
      | .error e => .error e
      | .ok delta =>
        match decodeOptStringField j "finish_reason" with
        | .error e => .error e
        | .ok fr => .ok ⟨index, delta, fr⟩
  | _ => .error "cannot unmarshal value into StreamingCompletionChoice"

/-- Wire roundtrip for `chat.StreamingCompletionChoice`. -/
theorem chatChoice_roundtrip (c : Chat.StreamingCompletionChoice) :
    Chat.StreamingCompletionChoice.fromJson c.toJson = Except.ok c := by
  obtain ⟨index, ⟨role, content, fc⟩, fr⟩ := c
  cases content <;> cases fc <;> cases fr <;> rfl

/-- Loop invariant for decoding an encoded choices array element by element
(`chat` generation). -/
theorem chatChoices_roundtrip_loop :
    ∀ (l : List Chat.StreamingCompletionChoice) (acc : List Chat.StreamingCompletionChoice),
    List.mapM.loop Chat.StreamingCompletionChoice.fromJson
      (l.map Chat.StreamingCompletionChoice.toJson) acc
      = Except.ok (acc.reverse ++ l) := by
  intro l
  induction l with
  | nil => intro acc; simp [List.mapM.loop]; rfl
  | cons c cs ih =>
    intro acc
    simp only [List.map_cons, List.mapM.loop, chatChoice_roundtrip,
      bind, Except.bind, ih]
    simp

/-- Wire encoding of `chat.StreamingCompletionObject` per its struct tags. -/
def Chat.StreamingCompletionObject.toJson (o : Chat.StreamingCompletionObject) : Json :=
  Json.obj [("id", Json.str o.id), ("object", Json.str o.object),
    ("created", Json.num o.created), ("model", Json.str o.model),
    ("choices", Json.arr (o.choices.map Chat.StreamingCompletionChoice.toJson))]

/-- Wire decoding of `chat.StreamingCompletionObject`. -/
def Chat.StreamingCompletionObject.fromJson (j : Json) :
    Except String Chat.StreamingCompletionObject :=
  match j with
  | Json.null => .ok Chat.StreamingCompletionObject.zero
  | Json.obj _ =>
    match decodeStringField j "id" with
    | .error e => .error e
    | .ok id =>
      match decodeStringField j "object" with
      | .error e => .error e
      | .ok object =>
        match decodeIntField j "created" with
        | .error e => .error e
        | .ok created =>
          match decodeStringField j "model" with
          | .error e => .error e
          | .ok model =>
            match (match j.getField "choices" with
                   | none => Except.ok []
                   | some Json.null => Except.ok []
                   | some (Json.arr xs) =>
                     xs.mapM Chat.StreamingCompletionChoice.fromJson
                   | some _ =>
                     Except.error "cannot unmarshal value into choices field") with
            | .error e => .error e
            | .ok choices => .ok ⟨id, object, created, model, choices⟩
  | _ => .error "cannot unmarshal value into StreamingCompletionObject"

/-- Wire roundtrip for `chat.StreamingCompletionObject`. -/
theorem chatObject_roundtrip (o : Chat.StreamingCompletionObject) :
    Chat.StreamingCompletionObject.fromJson o.toJson = Except.ok o := by
  obtain ⟨id, object, created, model, choices⟩ := o
  simp [Chat.StreamingCompletionObject.toJson,
    Chat.StreamingCompletionObject.fromJson, decodeStringField, decodeIntField,
    Json.getField, List.lookup, List.mapM, chatChoices_roundtrip_loop]

/-- Claim C6: encoding a Streaming Object to its wire JSON form and decoding
that JSON back yields an object equal to the original, in both client
generations.  The wire form is modelled at the JSON-document level; the
`arguments` raw message is compared as the JSON document it denotes. -/
theorem C6_wire_roundtrip :
    (∀ o : Openai.StreamingChatCompletionObject,
       Openai.StreamingChatCompletionObject.fromJson
         (Openai.StreamingChatCompletionObject.toJson o) = Except.ok o) ∧
    (∀ o : Chat.StreamingCompletionObject,
       Chat.StreamingCompletionObject.fromJson
         (Chat.StreamingCompletionObject.toJson o) = Except.ok o) :=
  ⟨openaiObject_roundtrip, chatObject_roundtrip⟩


/-- Shallow embedding of the part of Go's `http.Response` the code under
verification reads: the status code and the response body bytes. -/
structure GoHttpResponse where
  statusCode : Int
  body : List Char

/-- Header update with replace semantics (Go's `Header.Set`). -/
def setHeader (hs : List (String × String)) (k v : String) : List (String × String) :=
  (k, v) :: hs.filter (fun p => !(p.1 == k))

/-- Header read (Go's `Header.Get`). -/
def getHeader (hs : List (String × String)) (k : String) : Option String :=
  hs.lookup k

/-- Errors `openai.HTTPClient.DoChatCompletion` can return after the doer runs:
a wrapped transport failure or `ErrUnexpectedStatusCode` with its `Expected`
and `Actual` fields. -/
inductive Openai.ClientError where
  | httpError (msg : String)
  | unexpectedStatusCode (expected actual : Int)

/-- Shallow embedding of the header construction in
`openai.HTTPClient.DoChatCompletion`: the per-request key from `WithAPIKey`
is used when non-empty, otherwise the client key; the `Authorization` header
is `Bearer` plus the selected key and `Content-Type` is set to JSON. -/
def Openai.chatRequestHeaders (hKey reqApiKey : String) : List (String × String) :=
  let apiKey := if reqApiKey ≠ "" then reqApiKey else hKey
  setHeader (setHeader [] "Authorization" ("Bearer " ++ apiKey))
    "Content-Type" "application/json"

/-- Shallow embedding of `openai.HTTPClient.DoChatCompletion` from the doer
call onward: the request-marshaling steps (standard library) are summarized by
the `doer` parameter receiving the constructed headers.  A non-200 status
yields `ErrUnexpectedStatusCode{Expected: 200, Actual: code}` and no
response. -/
def Openai.doChatCompletion (hKey reqApiKey : String)
    (doer : List (String × String) → Except String GoHttpResponse) :
    Except Openai.ClientError GoHttpResponse :=
  match doer (Openai.chatRequestHeaders hKey reqApiKey) with
  | .error e => .error (.httpError ("error performing HTTP request: " ++ e))
  | .ok resp =>
    if resp.statusCode ≠ 200 then .error (.unexpectedStatusCode 200 resp.statusCode)
    else .ok resp

/-- Shallow embedding of `openai.HTTPClient.CreateStreamingChatCompletion`:
on a `DoChatCompletion` error it returns nil plus the error; otherwise it
wraps the response body in a fresh streaming response handle. -/
def Openai.createStreamingChatCompletion (hKey reqApiKey : String)
    (doer : List (String × String) → Except String GoHttpResponse) :
    Except Openai.ClientError StreamScanner :=
  match Openai.doChatCompletion hKey reqApiKey doer with
  | .error e => .error e
  | .ok resp => .ok (newStreamingChatCompletionResponse [resp.body])

/-- Errors `service.Client.Do` can produce: a wrapped doer failure,
`UnexpectedStatusCodeError` (with `Expected`/`Actual`), or a JSON decode
error. -/
inductive Service.ServiceError where
  | requestFailed (msg : String)
  | unexpectedStatusCode (expected actual : Int)
  | decodeError (msg : String)

/-- Decode target `v` of `service.Client.Do`: nil, an `io.Writer`, or a JSON
target (the default case of the type switch). -/
inductive Service.DoTarget (α : Type) where
  | nilTarget
  | writerTarget
  | jsonTarget (v : α)

/-- Outcome of one `json.Decoder.Decode` call on a response body: a decoded
value, `io.EOF` (no JSON value present, target untouched), or another decode
failure. -/
inductive Service.JsonDecodeOutcome (α : Type) where
  | ok (v : α)
  | eofErr
  | failed (msg : String)

/-- Return state of `service.Client.Do`: the `*http.Response` (nil on doer
failure), the error, and the final decode target. -/
structure Service.DoOutcome (α : Type) where
  resp : Option GoHttpResponse
  err : Option Service.ServiceError
  target : Service.DoTarget α

/-- Shallow embedding of `service.Client.Do`.  The behavior of
`json.NewDecoder(resp.Body).Decode` is the parameter `jsonDecode`; the source
swallows `io.EOF` from it (`decErr = nil`), returns the response together
with `UnexpectedStatusCodeError` outside 200..299, and performs the type
switch on the decode target. -/
def Service.clientDo {α : Type} (jsonDecode : List Char → α → Service.JsonDecodeOutcome α)
    (doerResult : Except String GoHttpResponse) (v : Service.DoTarget α) :
    Service.DoOutcome α :=
  match doerResult with
  | .error e => ⟨none, some (.requestFailed ("failed to perform request: " ++ e)), v⟩
  | .ok resp =>
    if ¬ (200 ≤ resp.statusCode ∧ resp.statusCode ≤ 299) then
      ⟨some resp, some (.unexpectedStatusCode 200 resp.statusCode), v⟩
    else
      match v with
      | .nilTarget => ⟨some resp, none, v⟩
      | .writerTarget => ⟨some resp, none, v⟩
      | .jsonTarget t =>
        match jsonDecode resp.body t with
        | .ok t2 => ⟨some resp, none, .jsonTarget t2⟩
        | .eofErr => ⟨some resp, none, .jsonTarget t⟩
        | .failed m => ⟨some resp, some (.decodeError m), .jsonTarget t⟩

/-- Shallow embedding of `service.WithAPIKey`: the option overwrites the
`Authorization` header only when its key is non-empty. -/
def Service.withAPIKey (key : String) (r : List (String × String)) :
    List (String × String) :=
  if key ≠ "" then setHeader r "Authorization" ("Bearer " ++ key) else r

/-- Shallow embedding of the header construction in
`service.Client.NewRequestWithContext`: Content-Type when a body is present,
then `Authorization: Bearer` with the service key, then the request options
in order. -/
def Service.newRequestWithContext (cKey : String) (hasBody : Bool)
    (opts : List (List (String × String) → List (String × String))) :
    List (String × String) :=
  let hs : List (String × String) := []
  let hs := if hasBody then setHeader hs "Content-Type" "application/json" else hs
  let hs := setHeader hs "Authorization" ("Bearer " ++ cKey)
  opts.foldl (fun h o => o h) hs

/-- Claim C5: on any response whose status code is not the expected success
status, `DoChatCompletion` returns the unexpected-status-code error carrying
the expected and actual codes and `CreateStreamingChatCompletion` returns
that error with no streaming handle; `service.Client.Do` likewise reports the
unexpected-status-code error for any status outside 200..299. -/
theorem C5_non_success_status
    (hKey reqApiKey : String) (resp : GoHttpResponse) {α : Type}
    (jsonDecode : List Char → α → Service.JsonDecodeOutcome α) (v : Service.DoTarget α) :
    (resp.statusCode ≠ 200 →
      Openai.doChatCompletion hKey reqApiKey (fun _ => .ok resp)
        = Except.error (Openai.ClientError.unexpectedStatusCode 200 resp.statusCode) ∧
      Openai.createStreamingChatCompletion hKey reqApiKey (fun _ => .ok resp)
        = Except.error (Openai.ClientError.unexpectedStatusCode 200 resp.statusCode)) ∧
    (resp.statusCode < 200 ∨ 299 < resp.statusCode →
      (Service.clientDo jsonDecode (.ok resp) v).err
        = some (Service.ServiceError.unexpectedStatusCode 200 resp.statusCode)) := by
  constructor
  · intro hne
    have h1 : Openai.doChatCompletion hKey reqApiKey (fun _ => .ok resp)
        = Except.error (Openai.ClientError.unexpectedStatusCode 200 resp.statusCode) := by
      simp [Openai.doChatCompletion, hne]
    exact ⟨h1, by simp [Openai.createStreamingChatCompletion, h1]⟩
  · intro hout
    have hc : ¬ (200 ≤ resp.statusCode ∧ resp.statusCode ≤ 299) := by omega
    cases v <;> simp [Service.clientDo, hc]

/-- Claim C5, witness at a 500 response. -/
theorem C5_non_success_status_witness :
    Openai.doChatCompletion "default-key" "" (fun _ => .ok ⟨500, []⟩)
      = Except.error (Openai.ClientError.unexpectedStatusCode 200 500) ∧
    Openai.createStreamingChatCompletion "default-key" "" (fun _ => .ok ⟨500, []⟩)
      = Except.error (Openai.ClientError.unexpectedStatusCode 200 500) ∧
    (Service.clientDo (fun _ t => Service.JsonDecodeOutcome.ok (t : Int))
        (.ok ⟨500, []⟩) Service.DoTarget.nilTarget).err
      = some (Service.ServiceError.unexpectedStatusCode 200 500) :=
  have h := C5_non_success_status "default-key" "" ⟨500, []⟩
    (fun _ t => Service.JsonDecodeOutcome.ok (t : Int)) Service.DoTarget.nilTarget
  ⟨(h.1 (by decide)).1, (h.1 (by decide)).2, h.2 (by decide)⟩

/-- Claim C9: the Authorization header sent is `Bearer k` where `k` is the
per-request key from `WithAPIKey` when that key is non-empty and the
configured default key otherwise, in both the `openai` client and the
`internal/service` client; an empty per-request key never overwrites the
default. -/
theorem C9_api_key_precedence (hKey cKey reqKey : String) :
    getHeader (Openai.chatRequestHeaders hKey reqKey) "Authorization"
      = some ("Bearer " ++ (if reqKey = "" then hKey else reqKey)) ∧
    getHeader (Service.newRequestWithContext cKey true [Service.withAPIKey reqKey])
        "Authorization"
      = some ("Bearer " ++ (if reqKey = "" then cKey else reqKey)) := by
  by_cases hr : reqKey = "" <;>
    simp [Openai.chatRequestHeaders, Service.newRequestWithContext, Service.withAPIKey,
      setHeader, getHeader, List.lookup, hr]

/-- Claim C10: on a success-status response with an empty body and a non-nil,
non-writer decode target, `service.Client.Do` swallows the decoder's `io.EOF`
and returns the response with no error, leaving the decode target
unchanged. -/
theorem C10_empty_body_eof_swallowed {α : Type}
    (jsonDecode : List Char → α → Service.JsonDecodeOutcome α)
    (resp : GoHttpResponse) (t : α)
    (hstatus : 200 ≤ resp.statusCode ∧ resp.statusCode ≤ 299)
    (hbody : resp.body = [])
    (heof : jsonDecode [] t = Service.JsonDecodeOutcome.eofErr) :
    Service.clientDo jsonDecode (Except.ok resp) (Service.DoTarget.jsonTarget t)
      = ⟨some resp, none, Service.DoTarget.jsonTarget t⟩ := by
  simp [Service.clientDo, hstatus, hbody, heof]

/-- Claim C10, witness at a 200 response with empty body and an integer
decode target. -/
theorem C10_empty_body_eof_swallowed_witness :
    ((200 : Int) ≤ 200 ∧ (200 : Int) ≤ 299) ∧
    Service.clientDo (fun _ _ => Service.JsonDecodeOutcome.eofErr)
        (Except.ok ⟨200, []⟩) (Service.DoTarget.jsonTarget (0 : Int))
      = ⟨some ⟨200, []⟩, none, Service.DoTarget.jsonTarget 0⟩ :=
  ⟨by decide,
   C10_empty_body_eof_swallowed (fun _ _ => Service.JsonDecodeOutcome.eofErr)
     ⟨200, []⟩ 0 (by decide) rfl rfl⟩

/-- Shallow embedding of `openai.Message` (`Role`, `Content *string`,
`Name *string`, `FunctionCall *FunctionCall`). -/
structure Openai.Message where
  role : String
  content : Option String
  name : Option String
  functionCall : Option FunctionCall

/-- Shallow embedding of `openai.ChatCompletionChoice`. -/
structure Openai.ChatCompletionChoice where
  index : Int
  message : Openai.Message
  finishReason : String

/-- Zero value of `openai.ChatCompletionChoice` (what the accessor returns on
an out-of-bounds index). -/
def Openai.ChatCompletionChoice.zero : Openai.ChatCompletionChoice :=
  ⟨0, ⟨"", none, none, none⟩, ""⟩

/-- Shallow embedding of `openai.Usage`. -/
structure Openai.Usage where
  promptTokens : Int
  completionTokens : Int
  totalTokens : Int

/-- Shallow embedding of `openai.ChatCompletionResponse`. -/
structure Openai.ChatCompletionResponse where
  id : String
  object : String
  created : Int
  model : String
  choices : List Openai.ChatCompletionChoice
  usage : Openai.Usage

/-- Shallow embedding of `openai.ChatCompletionResponse.GetChoiceAt`: guarded
on both `index < 0` and `index >= len(r.Choices)`. -/
def Openai.GetChoiceAt (r : Openai.ChatCompletionResponse) (index : Int) :
    Openai.ChatCompletionChoice × Bool :=
  if index < 0 ∨ (r.choices.length : Int) ≤ index then (Openai.ChatCompletionChoice.zero, false)
  else (r.choices.getD index.toNat Openai.ChatCompletionChoice.zero, true)

/-- Shallow embedding of `chat.Message`. -/
structure Chat.Message where
  role : String
  content : Option String
  name : Option String
  functionCall : Option FunctionCall

/-- Shallow embedding of `chat.CompletionChoice`. -/
structure Chat.CompletionChoice where
  index : Int
  message : Chat.Message
  finishReason : String

/-- Zero value of `chat.CompletionChoice`. -/
def Chat.CompletionChoice.zero : Chat.CompletionChoice :=
  ⟨0, ⟨"", none, none, none⟩, ""⟩

/-- Shallow embedding of `chat.Usage`. -/
structure Chat.Usage where
  promptTokens : Int
  completionTokens : Int
  totalTokens : Int

/-- Shallow embedding of `chat.CompletionResponse`. -/
structure Chat.CompletionResponse where
  id : String
  object : String
  created : Int
  model : String
  choices : List Chat.CompletionChoice
  usage : Chat.Usage

/-- Go slice indexing `xs[i]` with an `int` index: `none` models the runtime
panic on an out-of-range index, including every negative index. -/
def goSliceGet {α : Type} (xs : List α) (i : Int) : Option α :=
  if 0 ≤ i ∧ i < (xs.length : Int) then xs[i.toNat]? else none

/-- Shallow embedding of `chat.CompletionResponse.GetChoiceAt`: guarded only
on `index >= len(r.Choices)`; the slice access runs for every other index, so
a negative index panics (`none`). -/
def Chat.GetChoiceAt (r : Chat.CompletionResponse) (index : Int) :
    Option (Chat.CompletionChoice × Bool) :=
  if (r.choices.length : Int) ≤ index then some (Chat.CompletionChoice.zero, false)
  else (goSliceGet r.choices index).map (fun c => (c, true))

/-- Claim C8: both generations expose option-returning choice accessors, with
different domains — `openai.ChatCompletionResponse.GetChoiceAt` is total,
returning the choice and true inside bounds and the zero choice and false for
every other integer (negative included) without panicking, while
`chat.CompletionResponse.GetChoiceAt` guards only the upper bound, so it is
total only for non-negative indices and panics on every negative index. -/
theorem C8_choice_accessor_domains
    (r : Openai.ChatCompletionResponse) (r' : Chat.CompletionResponse) (i : Int) :
    (0 ≤ i → i < (r.choices.length : Int) →
      Openai.GetChoiceAt r i
        = (r.choices.getD i.toNat Openai.ChatCompletionChoice.zero, true)) ∧
    (i < 0 ∨ (r.choices.length : Int) ≤ i →
      Openai.GetChoiceAt r i = (Openai.ChatCompletionChoice.zero, false)) ∧
    (0 ≤ i → (Chat.GetChoiceAt r' i).isSome = true) ∧
    (i < 0 → Chat.GetChoiceAt r' i = none) := by
  refine ⟨?_, ?_, ?_, ?_⟩
  · intro h1 h2
    rw [Openai.GetChoiceAt, if_neg (by omega)]
  · intro h
    rw [Openai.GetChoiceAt, if_pos h]
  · intro h
    by_cases hle : (r'.choices.length : Int) ≤ i
    · simp [Chat.GetChoiceAt, hle]
    · have hlt : i < (r'.choices.length : Int) := by omega
      simp [Chat.GetChoiceAt, hle, goSliceGet, h, hlt]
  · intro h
    have hle : ¬ (r'.choices.length : Int) ≤ i := by omega
    simp [Chat.GetChoiceAt, hle, goSliceGet, h]

/-- Sample one-choice `openai` response for the C8 witness. -/
def sampleOpenaiResponse : Openai.ChatCompletionResponse :=
  ⟨"", "", 0, "", [⟨0, ⟨"user", some "ack", none, none⟩, ""⟩], ⟨0, 0, 0⟩⟩

/-- Sample one-choice `chat` response for the C8 witness. -/
def sampleChatResponse : Chat.CompletionResponse :=
  ⟨"", "", 0, "", [⟨0, ⟨"user", some "ack", none, none⟩, ""⟩], ⟨0, 0, 0⟩⟩

/-- Claim C8, witness at indices 0 and -1 of one-choice responses. -/
theorem C8_choice_accessor_domains_witness :
    Openai.GetChoiceAt sampleOpenaiResponse 0
      = (sampleOpenaiResponse.choices.getD 0 Openai.ChatCompletionChoice.zero, true) ∧
    Openai.GetChoiceAt sampleOpenaiResponse (-1)
      = (Openai.ChatCompletionChoice.zero, false) ∧
    (Chat.GetChoiceAt sampleChatResponse 0).isSome = true ∧
    Chat.GetChoiceAt sampleChatResponse (-1) = none :=
  have h0 := C8_choice_accessor_domains sampleOpenaiResponse sampleChatResponse 0
  have h1 := C8_choice_accessor_domains sampleOpenaiResponse sampleChatResponse (-1)
  ⟨h0.1 (by decide) (by decide), h1.2.1 (Or.inl (by decide)),
   h0.2.2.1 (by decide), h1.2.2.2 (by decide)⟩

end OpenAIGo
